import Mathlib

/-!
Verification development for the `jupyterlab-blockly` manager component.

The definitions below are a shallow embedding of:
* `BlocklyManager` from `packages/blockly/src/manager.ts` (toolbox selection,
  allow-list filtering, kernel/generator binding), together with the earlier
  variant of `BlocklyManager._filterContents` that additionally de-duplicates
  separators (suffix `V0` below);
* `BlocklyPanel._load` / `BlocklyPanel._onSave` from the extension package
  (versioned document load/save).

Toolbox items are modelled as the tagged variants of the toolbox data model
(static category, dynamic category, block, separator), with the mutable
`hidden` / `disabled` annotations represented explicitly.  JavaScript writes
both booleans and the strings "true"/"false" into these annotation slots, so
annotation values are modelled by `JVal`.
-/

namespace JupyterlabBlockly

/-- Value stored in a mutable `hidden` / `disabled` annotation slot: absent,
a JavaScript boolean, or a JavaScript string (the code writes both kinds). -/
inductive JVal where
  | undef : JVal
  | jbool (b : Bool) : JVal
  | jstr (s : String) : JVal
deriving DecidableEq, Repr

/-- A toolbox item: the tagged variants of `ToolboxItemInfo`.
`category` is a static category (`kind: "category"` with a `contents` list and
a mutable `hidden` slot); `dynamicCategory` is a dynamic category (`kind:
"category"` with a `custom` key, mutable `hidden` and `disabled` slots);
`block` has a `type` identifier, a mutable `disabled` slot and
`disabledReasons`; `separator` (`kind: "sep"`) has a mutable `hidden` slot. -/
inductive ToolboxItemInfo where
  | category (contents : List ToolboxItemInfo) (hidden : JVal) : ToolboxItemInfo
  | dynamicCategory (custom : String) (hidden : JVal) (disabled : JVal) : ToolboxItemInfo
  | block (btype : String) (disabled : JVal) (disabledReasons : List String) : ToolboxItemInfo
  | separator (hidden : JVal) : ToolboxItemInfo
deriving Repr

/-- JavaScript `String.prototype.toLowerCase`, embedded as a per-character
lowercase map. -/
def toLowerCase (s : String) : String := String.mk (s.data.map Char.toLower)

/-- The allow-list test `this._allowedBlocks === undefined ||
this._allowedBlocks.includes(s)`: `none` (undefined) allows everything,
otherwise exact membership of `s` in the list. -/
def allowedIncludes (allowedBlocks : Option (List String)) (s : String) : Bool :=
  match allowedBlocks with
  | none => true
  | some l => l.contains s

/-- `BlocklyManager._filterContents` of `packages/blockly/src/manager.ts`:
recursive filter of a `contents` list against the allow-list, returning the
updated list together with the visible count. Static categories recurse and
get `hidden = "false"/"true"` by child count; dynamic categories and blocks
test the lowercased `custom` / `type` against the allow-list; items of any
other kind (separators included) are left untouched and count zero. -/
def filterContents (a : Option (List String)) : List ToolboxItemInfo → List ToolboxItemInfo × Nat
  | [] => ([], 0)
  | .category cs _ :: rest =>
      let r := filterContents a cs
      let rr := filterContents a rest
      if r.2 > 0 then (.category r.1 (.jstr "false") :: rr.1, rr.2 + 1)
      else (.category r.1 (.jstr "true") :: rr.1, rr.2)
  | .dynamicCategory c _ d :: rest =>
      let rr := filterContents a rest
      if allowedIncludes a (toLowerCase c) then (.dynamicCategory c (.jstr "false") d :: rr.1, rr.2 + 1)
      else (.dynamicCategory c (.jstr "true") d :: rr.1, rr.2)
  | .block t _ _ :: rest =>
      let rr := filterContents a rest
      if allowedIncludes a (toLowerCase t) then (.block t (.jbool false) [] :: rr.1, rr.2 + 1)
      else (.block t (.jbool true) ["This block is not allowed"] :: rr.1, rr.2)
  | .separator h :: rest =>
      let rr := filterContents a rest
      (.separator h :: rr.1, rr.2)
termination_by l => sizeOf l

/-- Traversal loop of the variant `BlocklyManager._filterContents` (the
revision that also de-duplicates separators).  State `(visible, lastSeparator)`
is threaded through the list exactly as the two local variables of the source:
a separator is marked `hidden = true` when `lastSeparator === visible`,
otherwise it is left untouched and `lastSeparator` is set to `visible`;
blocks are tested by exact (case-sensitive) membership of their `type`;
dynamic categories (`kind === "CATEGORY"` with a `custom` key) write the
string "true"/"false" into their `disabled` slot; a nested static category is
filtered by a fresh run starting from `(0, 0)`. -/
def goV0 (a : Option (List String)) :
    List ToolboxItemInfo → Nat → Nat → List ToolboxItemInfo × Nat × Nat
  | [], visible, lastSeparator => ([], visible, lastSeparator)
  | .category cs _ :: rest, visible, lastSeparator =>
      let r := goV0 a cs 0 0
      let hv : JVal := if r.2.1 > 0 then .jstr "false" else .jstr "true"
      let visible1 := if r.2.1 > 0 then visible + 1 else visible
      let rr := goV0 a rest visible1 lastSeparator
      (.category r.1 hv :: rr.1, rr.2)
  | .block t _ _ :: rest, visible, lastSeparator =>
      if allowedIncludes a t then
        let rr := goV0 a rest (visible + 1) lastSeparator
        (.block t (.jbool false) [] :: rr.1, rr.2)
      else
        let rr := goV0 a rest visible lastSeparator
        (.block t (.jbool true) ["This block is not allowed"] :: rr.1, rr.2)
  | .dynamicCategory c h _ :: rest, visible, lastSeparator =>
      if allowedIncludes a c then
        let rr := goV0 a rest (visible + 1) lastSeparator
        (.dynamicCategory c h (.jstr "false") :: rr.1, rr.2)
      else
        let rr := goV0 a rest visible lastSeparator
        (.dynamicCategory c h (.jstr "true") :: rr.1, rr.2)
  | .separator h :: rest, visible, lastSeparator =>
      if lastSeparator = visible then
        let rr := goV0 a rest visible lastSeparator
        (.separator (.jbool true) :: rr.1, rr.2)
      else
        let rr := goV0 a rest visible visible
        (.separator h :: rr.1, rr.2)
termination_by l => sizeOf l

/-- The variant `_filterContents`: a full run starts with
`visible = 0` and `lastSeparator = 0` and returns the visible count. -/
def filterContentsV0 (a : Option (List String)) (l : List ToolboxItemInfo) :
    List ToolboxItemInfo × Nat :=
  let r := goV0 a l 0 0
  (r.1, r.2.1)

/-- One kernel specification of the session's catalog
(`specsManager.specs.kernelspecs` entry). -/
structure KernelSpecModel where
  name : String
  display_name : String
  language : String
deriving DecidableEq, Repr

/-- The change reasons carried by the manager's `changed` signal. -/
inductive Change where
  | toolbox
  | kernel
  | description
deriving DecidableEq, Repr

/-- Association-list lookup, the embedding of `Map.get` (insertion-ordered
string-keyed maps). -/
def alookup {α : Type} (l : List (String × α)) (k : String) : Option α :=
  (l.find? (fun p => p.1 == k)).map (fun p => p.2)

/-- Association-list update of an existing key, the embedding of the in-place
mutation of the tree object stored in the registry map. -/
def aupdate {α : Type} (l : List (String × α)) (k : String) (v : α) :
    List (String × α) :=
  l.map (fun p => if p.1 == k then (k, v) else p)

/-- The mutable state of a `BlocklyManager` together with the registry maps
and session catalog it reads: `_toolbox`, the registry's toolboxes map,
`_allowedBlocks`, `_selectedKernel`, `_generator`, the registry's generators
map (language to generator capability), the session's kernel-spec catalog and
`_description`.  Generator capabilities are opaque; they are modelled by an
identifier string. -/
structure ManagerState where
  toolboxName : String
  toolboxes : List (String × List ToolboxItemInfo)
  allowedBlocks : Option (List String)
  selectedKernel : Option KernelSpecModel
  generator : Option String
  generators : List (String × String)
  kernelspecs : List (String × KernelSpecModel)
  description : Option String

/-- `BlocklyManager._filterToolbox`: filter the currently selected toolbox's
tree in place (a no-op when the name is not registered). -/
def filterToolbox (m : ManagerState) : ManagerState :=
  match alookup m.toolboxes m.toolboxName with
  | none => m
  | some tree =>
      { m with toolboxes :=
          aupdate m.toolboxes m.toolboxName (filterContents m.allowedBlocks tree).1 }

/-- `BlocklyManager.setToolbox`: a no-op when the name equals the current
toolbox; otherwise the name is resolved in the registry with fallback to
"default", the toolbox is re-filtered and one "toolbox" change is emitted.
The returned list is the sequence of emitted change notifications. -/
def setToolbox (m : ManagerState) (name : String) : ManagerState × List Change :=
  if m.toolboxName = name then (m, [])
  else
    let tb := alookup m.toolboxes name
    let m1 := { m with toolboxName := if tb.isSome then name else "default" }
    (filterToolbox m1, [Change.toolbox])

/-- `BlocklyManager.listToolboxes`: one `(label, value)` pair per registered
toolbox name. -/
def listToolboxes (m : ManagerState) : List (String × String) :=
  m.toolboxes.map (fun p => (p.1, p.1))

/-- `BlocklyManager.listKernels`: `(display_name, name)` pairs of every
catalog kernel spec whose language has a registered generator. -/
def listKernels (m : ManagerState) : List (String × String) :=
  m.kernelspecs.filterMap (fun p =>
    if (alookup m.generators p.2.language).isSome then
      some (p.2.display_name, p.2.name)
    else none)

/-- The `kernel` getter: `this._selectedKernel?.name || 'No kernel'` (the
empty string is falsy, so it also yields the sentinel). -/
def kernelGetter (m : ManagerState) : String :=
  match m.selectedKernel with
  | some sp => if sp.name = "" then "No kernel" else sp.name
  | none => "No kernel"

/-- `BlocklyManager._onKernelChanged`: `newValue` is the name of the new
kernel connection (or `none` when there is no new kernel).  When the name is
present in the session catalog, the selected kernel becomes that spec, the
generator is re-resolved from the registry by the spec's language, and one
"kernel" change is emitted; otherwise nothing happens. -/
def onKernelChanged (m : ManagerState) (newValue : Option String) :
    ManagerState × List Change :=
  match newValue with
  | some nm =>
      match alookup m.kernelspecs nm with
      | some spec =>
          ({ m with
              selectedKernel := some spec,
              generator := alookup m.generators spec.language },
            [Change.kernel])
      | none => (m, [])
  | none => (m, [])

/-- The `format` field of a persisted document: a JSON scalar. -/
inductive JsonFmt where
  | num (n : Int)
  | str (s : String)
  | boolv (b : Bool)
deriving DecidableEq, Repr

/-- The `metadata` object of a versioned persisted document. -/
structure BlocklyMetadata where
  toolbox : Option String
  kernel : Option String
deriving DecidableEq, Repr

/-- The persisted on-disk document shape read by `BlocklyPanel._load`:
the optional `format` field, whether a truthy legacy `blocks` key is present,
the opaque payload under the `workspace` key, and the optional `metadata`
object. -/
structure PersistedDoc where
  format : Option JsonFmt
  hasBlocks : Bool
  workspace : Option String
  metadata : Option BlocklyMetadata
deriving DecidableEq, Repr

/-- What the layout's workspace was set to by a load: the whole payload
(legacy shape) or the content of the `workspace` key (format 2). -/
inductive LoadedWorkspace where
  | wholePayload (d : PersistedDoc)
  | fromWorkspaceKey (w : Option String)
deriving DecidableEq, Repr

/-- Observable outcome of `BlocklyPanel._load`: the workspace assignment,
the error dialogs shown (`showErrorMessage`), the console warnings, and the
kernel name whose selection was requested from the session (if any). -/
structure LoadResult where
  workspaceSet : Option LoadedWorkspace
  errors : List String
  warns : List String
  kernelRequested : Option String
deriving Repr

/-- `BlocklyPanel._load`: dispatch on the `format` field.  An absent format
with a truthy `blocks` key loads the whole payload as workspace state;
format `2` loads the `workspace` key and then applies the metadata toolbox
and kernel names after validating them against `listToolboxes` and
`listKernels` (mismatches produce a message but do not abort); any other
format shows an "Unsupported file format" error and sets no workspace. -/
def loadPanel (m : ManagerState) (doc : PersistedDoc) : ManagerState × LoadResult :=
  match doc.format with
  | none =>
      if doc.hasBlocks then
        (m, ⟨some (.wholePayload doc), [], [], none⟩)
      else
        (m, ⟨none, ["Unsupported file format"], [], none⟩)
  | some f =>
      if f = JsonFmt.num 2 then
        let mt : ManagerState × List String :=
          match doc.metadata with
          | some md =>
              match md.toolbox with
              | some t =>
                  if t = "" then (m, [])
                  else if (listToolboxes m).any (fun p => p.2 == t) then
                    ((setToolbox m t).1, [])
                  else (m, ["Unknown toolbox"])
              | none => (m, [])
          | none => (m, [])
        let kr : Option String × List String :=
          match doc.metadata with
          | some md =>
              match md.kernel with
              | some k =>
                  if k = "" || k = "No kernel" then (none, [])
                  else if (listKernels mt.1).any (fun p => p.2 == k) then
                    (some k, [])
                  else (none, ["Unknown kernel in blockly file"])
              | none => (none, [])
          | none => (none, [])
        (mt.1, ⟨some (.fromWorkspaceKey doc.workspace), mt.2, kr.2, kr.1⟩)
      else
        (m, ⟨none, ["Unsupported file format"], [], none⟩)

/-- `BlocklyPanel._onSave` (on save start): always emits a format `2`
document whose `workspace` key holds the live workspace state and whose
metadata records the current toolbox name and the `kernel` getter's value. -/
def onSave (m : ManagerState) (w : Option String) : PersistedDoc :=
  { format := some (.num 2)
    hasBlocks := false
    workspace := w
    metadata := some { toolbox := some m.toolboxName, kernel := some (kernelGetter m) } }

/-- Case-insensitive membership of `t` in `l` as the claim wording reads it
(spec-side notion, used to compare the claim against the code): some entry of
the allow-list equals the block type up to case. -/
def ciMember (l : List String) (t : String) : Bool :=
  l.any (fun x => toLowerCase x == toLowerCase t)

/-- Visible-unit count of a contents list under the variant filter's
case-sensitive test, computed from the immutable fields alone: an allowed
block or dynamic category counts one, a static category counts one when its
own count is positive, a separator counts zero. -/
def unitsV0 (a : Option (List String)) : List ToolboxItemInfo → Nat
  | [] => 0
  | .category cs _ :: rest => (if unitsV0 a cs > 0 then 1 else 0) + unitsV0 a rest
  | .block t _ _ :: rest => (if allowedIncludes a t then 1 else 0) + unitsV0 a rest
  | .dynamicCategory c _ _ :: rest => (if allowedIncludes a c then 1 else 0) + unitsV0 a rest
  | .separator _ :: rest => unitsV0 a rest
termination_by l => sizeOf l

/-- Number of visible descendant leaves (allowed blocks and allowed dynamic
categories, however deeply nested) of a contents list — the spec-side measure
the category-visibility invariant speaks about. -/
def leavesV0 (a : Option (List String)) : List ToolboxItemInfo → Nat
  | [] => 0
  | .category cs _ :: rest => leavesV0 a cs + leavesV0 a rest
  | .block t _ _ :: rest => (if allowedIncludes a t then 1 else 0) + leavesV0 a rest
  | .dynamicCategory c _ _ :: rest => (if allowedIncludes a c then 1 else 0) + leavesV0 a rest
  | .separator _ :: rest => leavesV0 a rest
termination_by l => sizeOf l

/-- Whether an already-filtered item carries the annotation of a counted
(visible) unit: a category with `hidden = "false"`, a dynamic category with
`disabled = "false"`, or a block with `disabled = false`. -/
def visibleOut : ToolboxItemInfo → Bool
  | .category _ h => h == JVal.jstr "false"
  | .dynamicCategory _ _ d => d == JVal.jstr "false"
  | .block _ d _ => d == JVal.jbool false
  | .separator _ => false

/-- Separator soundness check over an already-filtered tree. `seen` records
whether a visible unit occurred since the previous separator (or the start of
the list): every separator that is not marked `hidden = true` must have new
visible content before it, and nested category contents are checked with a
fresh scan. -/
def sepScan : Bool → List ToolboxItemInfo → Bool
  | _, [] => true
  | seen, .separator h :: t => (h == JVal.jbool true || seen) && sepScan false t
  | seen, .category cs hh :: t =>
      sepScan false cs && sepScan (seen || visibleOut (.category cs hh)) t
  | seen, it :: t => sepScan (seen || visibleOut it) t
termination_by _ l => sizeOf l

/-- Relates a contents list to its filtered image: at every separator
position the flag is either unchanged or newly set to `true`, recursively
through static categories. -/
def sepFlagsEvolve : List ToolboxItemInfo → List ToolboxItemInfo → Bool
  | [], [] => true
  | .separator h :: t, .separator h1 :: t1 =>
      (h1 == h || h1 == JVal.jbool true) && sepFlagsEvolve t t1
  | .category cs _ :: t, .category cs1 _ :: t1 =>
      sepFlagsEvolve cs cs1 && sepFlagsEvolve t t1
  | _ :: t, _ :: t1 => sepFlagsEvolve t t1
  | _, _ => false
termination_by l _ => sizeOf l

/-- Relates a contents list to its filtered image: every separator whose flag
was `true` still has flag `true`, recursively through static categories. -/
def hiddenSepsKept : List ToolboxItemInfo → List ToolboxItemInfo → Bool
  | [], [] => true
  | .separator h :: t, .separator h1 :: t1 =>
      (!(h == JVal.jbool true) || h1 == JVal.jbool true) && hiddenSepsKept t t1
  | .category cs _ :: t, .category cs1 _ :: t1 =>
      hiddenSepsKept cs cs1 && hiddenSepsKept t t1
  | _ :: t, _ :: t1 => hiddenSepsKept t t1
  | _, _ => false
termination_by l _ => sizeOf l

/-- Checks that a filtered tree is fully hidden and disabled: every category
has `hidden = "true"`, every block `disabled = true`, every dynamic category
`disabled = "true"`, every separator `hidden = true`. -/
def emptyFilteredOut : List ToolboxItemInfo → Bool
  | [] => true
  | .category cs h :: t => (h == JVal.jstr "true") && emptyFilteredOut cs && emptyFilteredOut t
  | .block _ d _ :: t => (d == JVal.jbool true) && emptyFilteredOut t
  | .dynamicCategory _ _ d :: t => (d == JVal.jstr "true") && emptyFilteredOut t
  | .separator h :: t => (h == JVal.jbool true) && emptyFilteredOut t
termination_by l => sizeOf l

/-- The visible count returned by the variant traversal is the initial count
plus the pure visible-unit count of the list. -/
theorem goV0_count (a : Option (List String)) :
    ∀ (l : List ToolboxItemInfo) (v ls : Nat), (goV0 a l v ls).2.1 = v + unitsV0 a l
  | [], v, ls => by simp [goV0, unitsV0]
  | .category cs h :: rest, v, ls => by
      have ihc := goV0_count a cs 0 0
      have ihr := goV0_count a rest
      by_cases hc : unitsV0 a cs > 0
      · simp [goV0, unitsV0, ihc, ihr, hc]; omega
      · simp [goV0, unitsV0, ihc, ihr, hc]
  | .block t d r :: rest, v, ls => by
      have ihr := goV0_count a rest
      by_cases hb : allowedIncludes a t
      · simp [goV0, unitsV0, ihr, hb]; omega
      · simp [goV0, unitsV0, ihr, hb]
  | .dynamicCategory c h d :: rest, v, ls => by
      have ihr := goV0_count a rest
      by_cases hb : allowedIncludes a c
      · simp [goV0, unitsV0, ihr, hb]; omega
      · simp [goV0, unitsV0, ihr, hb]
  | .separator h :: rest, v, ls => by
      have ihr := goV0_count a rest
      by_cases hs : ls = v
      · simp [goV0, unitsV0, ihr, hs]
      · simp [goV0, unitsV0, ihr, hs]
termination_by l => sizeOf l

/-- A contents list has zero visible units exactly when it has zero visible
descendant leaves. -/
theorem unitsV0_eq_zero_iff (a : Option (List String)) :
    ∀ (l : List ToolboxItemInfo), unitsV0 a l = 0 ↔ leavesV0 a l = 0
  | [] => by simp [unitsV0, leavesV0]
  | .category cs h :: rest => by
      have ihc := unitsV0_eq_zero_iff a cs
      have ihr := unitsV0_eq_zero_iff a rest
      by_cases hc : unitsV0 a cs = 0
      · simp [unitsV0, leavesV0, hc]
        rw [ihc] at hc
        simp [hc, ihr]
      · have hc1 : unitsV0 a cs > 0 := Nat.pos_of_ne_zero hc
        rw [ihc] at hc
        simp [unitsV0, leavesV0, hc1, hc]
  | .block t d r :: rest => by
      have ihr := unitsV0_eq_zero_iff a rest
      by_cases hb : allowedIncludes a t
      · simp [unitsV0, leavesV0, hb]
      · simp [unitsV0, leavesV0, hb, ihr]
  | .dynamicCategory c h d :: rest => by
      have ihr := unitsV0_eq_zero_iff a rest
      by_cases hb : allowedIncludes a c
      · simp [unitsV0, leavesV0, hb]
      · simp [unitsV0, leavesV0, hb, ihr]
  | .separator h :: rest => by
      have ihr := unitsV0_eq_zero_iff a rest
      simp [unitsV0, leavesV0, ihr]
termination_by l => sizeOf l

/-- Positions are preserved by `filterContents`, and a block at position `i`
comes out with `disabled` set to the negation of its allow-list test on the
lowercased type, and `disabledReasons` set accordingly. -/
theorem filterContents_get_block (a : Option (List String)) :
    ∀ (l : List ToolboxItemInfo) (i : Nat) (t : String) (d : JVal) (r : List String),
      l[i]? = some (.block t d r) →
      ((filterContents a l).1)[i]? =
        some (.block t (.jbool (!allowedIncludes a (toLowerCase t)))
          (if allowedIncludes a (toLowerCase t) then []
           else ["This block is not allowed"]))
  | [], i, t, d, r => by simp
  | .category cs0 h0 :: rest, 0, t, d, r => by
      intro hp; simp at hp
  | .dynamicCategory c0 h0 d0 :: rest, 0, t, d, r => by
      intro hp; simp at hp
  | .separator h0 :: rest, 0, t, d, r => by
      intro hp; simp at hp
  | .block t0 d0 r0 :: rest, 0, t, d, r => by
      intro hp
      simp at hp
      obtain ⟨ht, _, _⟩ := hp
      subst ht
      by_cases hb : allowedIncludes a (toLowerCase t0) <;>
        simp [filterContents, hb]
  | .category cs0 h0 :: rest, i + 1, t, d, r => by
      intro hp
      rw [List.getElem?_cons_succ] at hp
      have ih := filterContents_get_block a rest i t d r hp
      by_cases hc : (filterContents a cs0).2 > 0 <;>
        simp [filterContents, hc, ih]
  | .dynamicCategory c0 h0 d0 :: rest, i + 1, t, d, r => by
      intro hp
      rw [List.getElem?_cons_succ] at hp
      have ih := filterContents_get_block a rest i t d r hp
      by_cases hb : allowedIncludes a (toLowerCase c0) <;>
        simp [filterContents, hb, ih]
  | .block t0 d0 r0 :: rest, i + 1, t, d, r => by
      intro hp
      rw [List.getElem?_cons_succ] at hp
      have ih := filterContents_get_block a rest i t d r hp
      by_cases hb : allowedIncludes a (toLowerCase t0) <;>
        simp [filterContents, hb, ih]
  | .separator h0 :: rest, i + 1, t, d, r => by
      intro hp
      rw [List.getElem?_cons_succ] at hp
      have ih := filterContents_get_block a rest i t d r hp
      simp [filterContents, ih]
termination_by l => sizeOf l

/-- Positions are preserved by the variant traversal, and a static category
at position `i` comes out with its contents filtered by a fresh run and its
`hidden` flag set to "true" exactly when the contents have zero visible
units. -/
theorem goV0_get_category (a : Option (List String)) :
    ∀ (l : List ToolboxItemInfo) (v ls i : Nat) (cs : List ToolboxItemInfo) (h : JVal),
      l[i]? = some (.category cs h) →
      ((goV0 a l v ls).1)[i]? =
        some (.category (goV0 a cs 0 0).1
          (if unitsV0 a cs > 0 then JVal.jstr "false" else JVal.jstr "true"))
  | [], v, ls, i, cs, h => by simp
  | .block t0 d0 r0 :: rest, v, ls, 0, cs, h => by
      intro hp; simp at hp
  | .dynamicCategory c0 h0 d0 :: rest, v, ls, 0, cs, h => by
      intro hp; simp at hp
  | .separator h0 :: rest, v, ls, 0, cs, h => by
      intro hp; simp at hp
  | .category cs0 h0 :: rest, v, ls, 0, cs, h => by
      intro hp
      simp at hp
      obtain ⟨hcs, _⟩ := hp
      subst hcs
      by_cases hc : unitsV0 a cs0 > 0 <;>
        simp [goV0, goV0_count, hc]
  | .category cs0 h0 :: rest, v, ls, i + 1, cs, h => by
      intro hp
      rw [List.getElem?_cons_succ] at hp
      by_cases hc : unitsV0 a cs0 > 0
      · have ih := goV0_get_category a rest (v + 1) ls i cs h hp
        simp [goV0, goV0_count, hc, ih]
      · have ih := goV0_get_category a rest v ls i cs h hp
        simp [goV0, goV0_count, hc, ih]
  | .block t0 d0 r0 :: rest, v, ls, i + 1, cs, h => by
      intro hp
      rw [List.getElem?_cons_succ] at hp
      by_cases hb : allowedIncludes a t0
      · have ih := goV0_get_category a rest (v + 1) ls i cs h hp
        simp [goV0, hb, ih]
      · have ih := goV0_get_category a rest v ls i cs h hp
        simp [goV0, hb, ih]
  | .dynamicCategory c0 h0 d0 :: rest, v, ls, i + 1, cs, h => by
      intro hp
      rw [List.getElem?_cons_succ] at hp
      by_cases hb : allowedIncludes a c0
      · have ih := goV0_get_category a rest (v + 1) ls i cs h hp
        simp [goV0, hb, ih]
      · have ih := goV0_get_category a rest v ls i cs h hp
        simp [goV0, hb, ih]
  | .separator h0 :: rest, v, ls, i + 1, cs, h => by
      intro hp
      rw [List.getElem?_cons_succ] at hp
      by_cases hs : ls = v
      · have ih := goV0_get_category a rest v v i cs h hp
        simp [goV0, hs, ih]
      · have ih := goV0_get_category a rest v v i cs h hp
        simp [goV0, hs, ih]
termination_by l => sizeOf l

@[simp] theorem jval_beq_def (x y : JVal) : (x == y) = decide (x = y) := rfl

@[simp] theorem jstr_tf : (JVal.jstr "true" = JVal.jstr "false") ↔ False := by decide

@[simp] theorem jstr_ff : (JVal.jstr "false" = JVal.jstr "false") ↔ True := by decide

@[simp] theorem jstr_tt : (JVal.jstr "true" = JVal.jstr "true") ↔ True := by decide

/-- Separator soundness of the variant traversal: starting from a state with
`lastSeparator ≤ visible`, every separator of the output that is not marked
hidden has new visible content before it. -/
theorem goV0_sepScan (a : Option (List String)) :
    ∀ (l : List ToolboxItemInfo) (v ls : Nat), ls ≤ v →
      sepScan (decide (ls < v)) ((goV0 a l v ls).1) = true
  | [], v, ls => by simp [goV0, sepScan]
  | .category cs0 h0 :: rest, v, ls => by
      intro hle
      have ihc : sepScan false ((goV0 a cs0 0 0).1) = true := by
        simpa using goV0_sepScan a cs0 0 0 (Nat.le_refl 0)
      by_cases hc : unitsV0 a cs0 > 0
      · have ihr := goV0_sepScan a rest (v + 1) ls (by omega)
        have h1 : ls < v + 1 := by omega
        simp only [decide_eq_true_eq, eq_iff_iff, iff_true] at ihr
        rw [decide_eq_true h1] at ihr
        simp [goV0, goV0_count, hc, sepScan, visibleOut, ihc, ihr]
      · have ihr := goV0_sepScan a rest v ls hle
        simp [goV0, goV0_count, hc, sepScan, visibleOut, ihc, ihr]
  | .block t0 d0 r0 :: rest, v, ls => by
      intro hle
      by_cases hb : allowedIncludes a t0
      · have ihr := goV0_sepScan a rest (v + 1) ls (by omega)
        have h1 : ls < v + 1 := by omega
        rw [decide_eq_true h1] at ihr
        simp [goV0, hb, sepScan, visibleOut, ihr]
      · have ihr := goV0_sepScan a rest v ls hle
        simp [goV0, hb, sepScan, visibleOut, ihr]
  | .dynamicCategory c0 h0 d0 :: rest, v, ls => by
      intro hle
      by_cases hb : allowedIncludes a c0
      · have ihr := goV0_sepScan a rest (v + 1) ls (by omega)
        have h1 : ls < v + 1 := by omega
        rw [decide_eq_true h1] at ihr
        simp [goV0, hb, sepScan, visibleOut, ihr]
      · have ihr := goV0_sepScan a rest v ls hle
        simp [goV0, hb, sepScan, visibleOut, ihr]
  | .separator h0 :: rest, v, ls => by
      intro hle
      have ihr : sepScan false ((goV0 a rest v v).1) = true := by
        simpa using goV0_sepScan a rest v v (Nat.le_refl v)
      by_cases hs : ls = v
      · simp [goV0, hs, sepScan, ihr]
      · have hlt : ls < v := by omega
        simp [goV0, hs, sepScan, hlt, ihr]
termination_by l => sizeOf l

/-- The variant traversal changes separator flags only by setting them to
`true`; every other separator keeps its previous flag. -/
theorem goV0_evolve (a : Option (List String)) :
    ∀ (l : List ToolboxItemInfo) (v ls : Nat),
      sepFlagsEvolve l ((goV0 a l v ls).1) = true
  | [], v, ls => by simp [goV0, sepFlagsEvolve]
  | .category cs0 h0 :: rest, v, ls => by
      have ihc := goV0_evolve a cs0 0 0
      by_cases hc : unitsV0 a cs0 > 0
      · have ihr := goV0_evolve a rest (v + 1) ls
        simp [goV0, goV0_count, hc, sepFlagsEvolve, ihc, ihr]
      · have ihr := goV0_evolve a rest v ls
        simp [goV0, goV0_count, hc, sepFlagsEvolve, ihc, ihr]
  | .block t0 d0 r0 :: rest, v, ls => by
      by_cases hb : allowedIncludes a t0
      · have ihr := goV0_evolve a rest (v + 1) ls
        simp [goV0, hb, sepFlagsEvolve, ihr]
      · have ihr := goV0_evolve a rest v ls
        simp [goV0, hb, sepFlagsEvolve, ihr]
  | .dynamicCategory c0 h0 d0 :: rest, v, ls => by
      by_cases hb : allowedIncludes a c0
      · have ihr := goV0_evolve a rest (v + 1) ls
        simp [goV0, hb, sepFlagsEvolve, ihr]
      · have ihr := goV0_evolve a rest v ls
        simp [goV0, hb, sepFlagsEvolve, ihr]
  | .separator h0 :: rest, v, ls => by
      by_cases hs : ls = v
      · have ihr := goV0_evolve a rest v v
        simp [goV0, hs, sepFlagsEvolve, ihr]
      · have ihr := goV0_evolve a rest v v
        simp [goV0, hs, sepFlagsEvolve, ihr]
termination_by l => sizeOf l

/-- The variant traversal never clears a separator's hidden flag: a separator
entering with `hidden = true` leaves with `hidden = true`. -/
theorem goV0_kept (a : Option (List String)) :
    ∀ (l : List ToolboxItemInfo) (v ls : Nat),
      hiddenSepsKept l ((goV0 a l v ls).1) = true
  | [], v, ls => by simp [goV0, hiddenSepsKept]
  | .category cs0 h0 :: rest, v, ls => by
      have ihc := goV0_kept a cs0 0 0
      by_cases hc : unitsV0 a cs0 > 0
      · have ihr := goV0_kept a rest (v + 1) ls
        simp [goV0, goV0_count, hc, hiddenSepsKept, ihc, ihr]
      · have ihr := goV0_kept a rest v ls
        simp [goV0, goV0_count, hc, hiddenSepsKept, ihc, ihr]
  | .block t0 d0 r0 :: rest, v, ls => by
      by_cases hb : allowedIncludes a t0
      · have ihr := goV0_kept a rest (v + 1) ls
        simp [goV0, hb, hiddenSepsKept, ihr]
      · have ihr := goV0_kept a rest v ls
        simp [goV0, hb, hiddenSepsKept, ihr]
  | .dynamicCategory c0 h0 d0 :: rest, v, ls => by
      by_cases hb : allowedIncludes a c0
      · have ihr := goV0_kept a rest (v + 1) ls
        simp [goV0, hb, hiddenSepsKept, ihr]
      · have ihr := goV0_kept a rest v ls
        simp [goV0, hb, hiddenSepsKept, ihr]
  | .separator h0 :: rest, v, ls => by
      by_cases hs : ls = v
      · have ihr := goV0_kept a rest v v
        simp [goV0, hs, hiddenSepsKept, ihr]
      · have ihr := goV0_kept a rest v v
        simp [goV0, hs, hiddenSepsKept, ihr]
termination_by l => sizeOf l

/-- Under the empty allow-list the variant traversal, started with
`lastSeparator = visible`, keeps the state unchanged and hides or disables
every node, separators included. -/
theorem goV0_empty :
    ∀ (l : List ToolboxItemInfo) (v : Nat),
      (goV0 (some []) l v v).2 = (v, v) ∧
      emptyFilteredOut ((goV0 (some []) l v v).1) = true
  | [], v => by simp [goV0, emptyFilteredOut]
  | .category cs0 h0 :: rest, v => by
      have ihc := goV0_empty cs0 0
      have ihr := goV0_empty rest v
      have hc : (goV0 (some []) cs0 0 0).2.1 = 0 := by rw [ihc.1]
      simp [goV0, hc, emptyFilteredOut, ihc.2, ihr.1, ihr.2]
  | .block t0 d0 r0 :: rest, v => by
      have ihr := goV0_empty rest v
      have hb : allowedIncludes (some []) t0 = false := by simp [allowedIncludes]
      simp [goV0, hb, emptyFilteredOut, ihr.1, ihr.2]
  | .dynamicCategory c0 h0 d0 :: rest, v => by
      have ihr := goV0_empty rest v
      have hb : allowedIncludes (some []) c0 = false := by simp [allowedIncludes]
      simp [goV0, hb, emptyFilteredOut, ihr.1, ihr.2]
  | .separator h0 :: rest, v => by
      have ihr := goV0_empty rest v
      simp [goV0, emptyFilteredOut, ihr.1, ihr.2]
termination_by l => sizeOf l

/-- The current filter is idempotent: re-filtering its own output with the
same allow-list reproduces the output and the count exactly. -/
theorem filterContents_idem (a : Option (List String)) :
    ∀ (l : List ToolboxItemInfo),
      filterContents a (filterContents a l).1 = filterContents a l
  | [] => by simp [filterContents]
  | .category cs0 h0 :: rest => by
      have ihc := filterContents_idem a cs0
      have ihr := filterContents_idem a rest
      by_cases hc : (filterContents a cs0).2 > 0 <;>
        simp [filterContents, hc, ihc, ihr]
  | .block t0 d0 r0 :: rest => by
      have ihr := filterContents_idem a rest
      by_cases hb : allowedIncludes a (toLowerCase t0) <;>
        simp [filterContents, hb, ihr]
  | .dynamicCategory c0 h0 d0 :: rest => by
      have ihr := filterContents_idem a rest
      by_cases hb : allowedIncludes a (toLowerCase c0) <;>
        simp [filterContents, hb, ihr]
  | .separator h0 :: rest => by
      have ihr := filterContents_idem a rest
      simp [filterContents, ihr]
termination_by l => sizeOf l

/-- The variant traversal is idempotent from any starting state: re-running
it on its own output with the same initial state reproduces output and final
state exactly. -/
theorem goV0_idem (a : Option (List String)) :
    ∀ (l : List ToolboxItemInfo) (v ls : Nat),
      goV0 a ((goV0 a l v ls).1) v ls = goV0 a l v ls
  | [], v, ls => by simp [goV0]
  | .category cs0 h0 :: rest, v, ls => by
      have ihc := goV0_idem a cs0 0 0
      by_cases hc : unitsV0 a cs0 > 0
      · have ihr := goV0_idem a rest (v + 1) ls
        simp [goV0, goV0_count, hc, ihc, ihr]
      · have ihr := goV0_idem a rest v ls
        simp [goV0, goV0_count, hc, ihc, ihr]
  | .block t0 d0 r0 :: rest, v, ls => by
      by_cases hb : allowedIncludes a t0
      · have ihr := goV0_idem a rest (v + 1) ls
        simp [goV0, hb, ihr]
      · have ihr := goV0_idem a rest v ls
        simp [goV0, hb, ihr]
  | .dynamicCategory c0 h0 d0 :: rest, v, ls => by
      by_cases hb : allowedIncludes a c0
      · have ihr := goV0_idem a rest (v + 1) ls
        simp [goV0, hb, ihr]
      · have ihr := goV0_idem a rest v ls
        simp [goV0, hb, ihr]
  | .separator h0 :: rest, v, ls => by
      by_cases hs : ls = v
      · have ihr := goV0_idem a rest v v
        simp [goV0, hs, ihr]
      · have ihr := goV0_idem a rest v v
        simp [goV0, hs, ihr]
termination_by l => sizeOf l

/-- Selecting the already-current toolbox name is a strict no-op: same state,
no change emitted. -/
theorem setToolbox_noop (m : ManagerState) : setToolbox m m.toolboxName = (m, []) := by
  simp [setToolbox]

/-- Selecting a registered toolbox name makes it the current toolbox. -/
theorem setToolbox_name_registered (m : ManagerState) (t : String)
    (hreg : (alookup m.toolboxes t).isSome) :
    (setToolbox m t).1.toolboxName = t := by
  unfold setToolbox
  by_cases he : m.toolboxName = t
  · simp [he]
  · simp [he, filterToolbox, hreg]
    split <;> simp

theorem isSome_omap {α β : Type} (f : α → β) (o : Option α) :
    (o.map f).isSome = o.isSome := by cases o <;> rfl

/-- `setToolbox` never touches the kernel-spec catalog or the generator
registry, so the kernel list it offers is unchanged. -/
theorem listKernels_setToolbox (m : ManagerState) (n : String) :
    listKernels (setToolbox m n).1 = listKernels m := by
  unfold setToolbox
  by_cases he : m.toolboxName = n
  · simp [he]
  · simp only [if_neg he]
    unfold filterToolbox
    split <;> rfl

/-- The toolbox-name membership check of `_load` coincides with lookup
success in the registry. -/
theorem listToolboxes_any_iff (m : ManagerState) (t : String) :
    ((listToolboxes m).any (fun p => p.2 == t) = true) ↔
      (alookup m.toolboxes t).isSome := by
  simp [listToolboxes, alookup, List.any_map, isSome_omap, List.any_eq_true,
    List.find?_isSome, Function.comp]

/-- A catalog kernel whose spec is registered under its own name and whose
language has a generator passes the kernel membership check of `_load`. -/
theorem listKernels_any_of (m : ManagerState) (k : String) (sp : KernelSpecModel)
    (hk : alookup m.kernelspecs k = some sp) (hname : sp.name = k)
    (hgen : (alookup m.generators sp.language).isSome) :
    ((listKernels m).any (fun p => p.2 == k) = true) := by
  rw [List.any_eq_true]
  unfold alookup at hk
  rw [Option.map_eq_some'] at hk
  obtain ⟨p, hfind, hv⟩ := hk
  obtain ⟨k1, v1⟩ := p
  simp only at hv
  subst hv
  refine ⟨(v1.display_name, v1.name), ?_, by simp [hname]⟩
  rw [listKernels, List.mem_filterMap]
  exact ⟨(k1, v1), List.mem_of_find?_eq_some hfind, by simp [hgen]⟩

example : filterContents none [.block "x" .undef []] =
    ([.block "x" (.jbool false) []], 1) := by
  simp [filterContents, allowedIncludes]

/-- C1, counterexample to the claim as stated: with allow-list `["A"]` and a
block of type "A", the type is a member of the allow-list under
case-insensitive comparison (indeed verbatim), yet the filter disables the
block, because the code tests exact membership of the lowercased type and the
entry "A" is not lowercase. -/
theorem c1_counterexample :
    ciMember ["A"] "A" = true ∧
    filterContents (some ["A"]) [ToolboxItemInfo.block "A" JVal.undef []] =
      ([ToolboxItemInfo.block "A" (JVal.jbool true) ["This block is not allowed"]], 0) := by
  have hb : allowedIncludes (some ["A"]) (toLowerCase "A") = false := by decide
  exact ⟨by decide, by simp [filterContents, hb]⟩

/-- C1 (amended): for every toolbox contents list and every allow-list, the
filter marks a block visible iff the allow-list is undefined or the
lowercased block type is an exact member of the allow-list (case-insensitive
in the block's type, case-sensitive in the allow-list entries); it sets
`disabled` to the negation of that test and `disabledReasons` to
`["This block is not allowed"]` when not visible and to `[]` when visible. -/
theorem c1_block_filter (a : Option (List String)) (l : List ToolboxItemInfo)
    (i : Nat) (t : String) (d : JVal) (r : List String)
    (hp : l[i]? = some (.block t d r)) :
    ((filterContents a l).1)[i]? =
      some (.block t (.jbool (!allowedIncludes a (toLowerCase t)))
        (if allowedIncludes a (toLowerCase t) then []
         else ["This block is not allowed"])) :=
  filterContents_get_block a l i t d r hp

/-- Witness for C1 at a concrete input: allow-list `["foo"]`, block type
"Foo" at position 0. -/
theorem c1_block_filter_witness :
    (([ToolboxItemInfo.block "Foo" JVal.undef []] :
        List ToolboxItemInfo)[0]? = some (.block "Foo" JVal.undef [])) ∧
    ((filterContents (some ["foo"]) [ToolboxItemInfo.block "Foo" JVal.undef []]).1)[0]? =
      some (.block "Foo" (.jbool (!allowedIncludes (some ["foo"]) (toLowerCase "Foo")))
        (if allowedIncludes (some ["foo"]) (toLowerCase "Foo") then []
         else ["This block is not allowed"])) :=
  ⟨rfl, c1_block_filter (some ["foo"]) [ToolboxItemInfo.block "Foo" JVal.undef []]
    0 "Foo" JVal.undef [] rfl⟩

/-- C2, counterexample to the claim as stated: in the tree
`[allowed block, separator already hidden]` visible content appears before
the separator and there is no previous separator, so by the claimed "hidden
iff no visible content appeared" the separator would have to come out
visible; the variant filter leaves its hidden flag `true` (it only ever sets
the flag, never clears it). -/
theorem c2_counterexample :
    filterContentsV0 none
      [ToolboxItemInfo.block "x" JVal.undef [],
       ToolboxItemInfo.separator (JVal.jbool true)] =
      ([ToolboxItemInfo.block "x" (JVal.jbool false) [],
        ToolboxItemInfo.separator (JVal.jbool true)], 1) := by
  simp [filterContentsV0, goV0, allowedIncludes]

/-- C2 (amended): after one run of the variant filter, a static category is
hidden iff its contents hold zero visible descendant leaves (its contents
being filtered by a fresh run), and every separator that is not marked
hidden has fresh visible content between it and the previous separator (so
the second of two consecutive separators and a separator preceding all
visible content are always hidden); a separator whose flag was already
hidden keeps it even when visible content precedes it. -/
theorem c2_filter_invariant (a : Option (List String)) (l : List ToolboxItemInfo) :
    (∀ (i : Nat) (cs : List ToolboxItemInfo) (h : JVal),
        l[i]? = some (.category cs h) →
        ((filterContentsV0 a l).1)[i]? =
          some (.category (filterContentsV0 a cs).1
            (if leavesV0 a cs = 0 then JVal.jstr "true" else JVal.jstr "false"))) ∧
    sepScan false ((filterContentsV0 a l).1) = true := by
  constructor
  · intro i cs h hp
    have hg := goV0_get_category a l 0 0 i cs h hp
    rcases Nat.eq_zero_or_pos (unitsV0 a cs) with h0 | h0
    · have hl := (unitsV0_eq_zero_iff a cs).mp h0
      simp only [filterContentsV0]
      rw [hg]
      simp [h0, hl]
    · have hl : ¬ leavesV0 a cs = 0 := by
        intro hzz
        rw [← unitsV0_eq_zero_iff a cs] at hzz
        omega
      simp only [filterContentsV0]
      rw [hg]
      simp [Nat.pos_iff_ne_zero.mp h0, hl, h0]
  · simpa [filterContentsV0] using goV0_sepScan a l 0 0 (Nat.le_refl 0)

/-- Witness for C2 at a concrete input: a category holding one block,
filtered with an undefined allow-list. -/
theorem c2_filter_invariant_witness :
    (([ToolboxItemInfo.category [ToolboxItemInfo.block "x" JVal.undef []] JVal.undef] :
        List ToolboxItemInfo)[0]? =
      some (.category [ToolboxItemInfo.block "x" JVal.undef []] JVal.undef)) ∧
    ((filterContentsV0 none
        [ToolboxItemInfo.category [ToolboxItemInfo.block "x" JVal.undef []] JVal.undef]).1)[0]? =
      some (.category
        (filterContentsV0 none [ToolboxItemInfo.block "x" JVal.undef []]).1
        (if leavesV0 none [ToolboxItemInfo.block "x" JVal.undef []] = 0
         then JVal.jstr "true" else JVal.jstr "false")) :=
  ⟨rfl,
    (c2_filter_invariant none
      [ToolboxItemInfo.category [ToolboxItemInfo.block "x" JVal.undef []] JVal.undef]).1
      0 [ToolboxItemInfo.block "x" JVal.undef []] JVal.undef rfl⟩

/-- C4: filtering any toolbox tree with the empty allow-list (defined but
holding no entries) disables every block, disables every dynamic category,
hides every static category and hides every separator; the run reports zero
visible units. -/
theorem c4_empty_allowlist (l : List ToolboxItemInfo) :
    emptyFilteredOut ((filterContentsV0 (some []) l).1) = true ∧
    (filterContentsV0 (some []) l).2 = 0 := by
  have h := goV0_empty l 0
  refine ⟨by simpa [filterContentsV0] using h.2, ?_⟩
  simp only [filterContentsV0]
  exact congrArg Prod.fst h.1

/-- C9: both filter revisions are idempotent — re-running the filter on its
own output with the same allow-list reproduces the same annotations and the
same visible count. -/
theorem c9_filter_idempotent (a : Option (List String)) (l : List ToolboxItemInfo) :
    filterContents a (filterContents a l).1 = filterContents a l ∧
    filterContentsV0 a ((filterContentsV0 a l).1) = filterContentsV0 a l := by
  refine ⟨filterContents_idem a l, ?_⟩
  simp [filterContentsV0, goV0_idem a l 0 0]

/-- C10: the variant filter only ever sets a separator's hidden flag to
`true` (every separator either keeps its flag or gets flag `true`), so a
separator hidden by one run stays hidden after any subsequent run with any
allow-list, including the undefined one. -/
theorem c10_separator_monotone :
    (∀ (a : Option (List String)) (l : List ToolboxItemInfo),
        sepFlagsEvolve l ((filterContentsV0 a l).1) = true) ∧
    (∀ (a b : Option (List String)) (l : List ToolboxItemInfo),
        hiddenSepsKept ((filterContentsV0 a l).1)
          ((filterContentsV0 b ((filterContentsV0 a l).1)).1) = true) := by
  constructor
  · intro a l
    simpa [filterContentsV0] using goV0_evolve a l 0 0
  · intro a b l
    simpa [filterContentsV0] using goV0_kept b ((filterContentsV0 a l).1) 0 0

example : filterContentsV0 (some []) [.separator .undef, .block "x" .undef []] =
    ([.separator (.jbool true), .block "x" (.jbool true) ["This block is not allowed"]], 0) := by
  simp [filterContentsV0, goV0, allowedIncludes]


/-- A concrete manager whose current toolbox is "default". -/
def specPy : KernelSpecModel :=
  { name := "python3", display_name := "Python 3", language := "python" }

def mgr0 : ManagerState :=
  { toolboxName := "default"
    toolboxes := [("default", [])]
    allowedBlocks := none
    selectedKernel := some specPy
    generator := some "pygen"
    generators := [("python", "pygen")]
    kernelspecs := [("python3", specPy)]
    description := none }

/-- C3, counterexample to the claim as stated: the current toolbox is already
"default", the requested name is unregistered and different from "default",
and `setToolbox` emits a "toolbox" change — the claim says no change is
emitted in that situation. -/
theorem c3_counterexample :
    mgr0.toolboxName = "default" ∧
    alookup mgr0.toolboxes "nonexistent" = none ∧
    (setToolbox mgr0 "nonexistent").2 = [Change.toolbox] := by
  refine ⟨rfl, rfl, ?_⟩
  have hne : ¬ (mgr0.toolboxName = "nonexistent") := by decide
  simp [setToolbox, hne]

/-- C3 (amended): calling `setToolbox` with an unregistered name sets the
active toolbox to "default" and emits one "toolbox" change whenever the
requested name differs from the current one — even when the current toolbox
was already "default"; calling it with the currently selected name is a
strict no-op (same state, nothing emitted). -/
theorem c3_set_toolbox (m : ManagerState) (name : String)
    (hunreg : alookup m.toolboxes name = none) :
    (name = m.toolboxName → setToolbox m name = (m, [])) ∧
    (name ≠ m.toolboxName →
      (setToolbox m name).1.toolboxName = "default" ∧
      (setToolbox m name).2 = [Change.toolbox]) := by
  constructor
  · intro he
    rw [he]
    exact setToolbox_noop m
  · intro hne
    have hcond : ¬ (m.toolboxName = name) := fun hh => hne hh.symm
    unfold setToolbox
    simp only [if_neg hcond, hunreg]
    refine ⟨?_, trivial⟩
    unfold filterToolbox
    split <;> rfl

/-- Witness for C3 at a concrete input: requesting the unregistered name
"nonexistent" from a manager whose current toolbox is "default". -/
theorem c3_set_toolbox_witness :
    alookup mgr0.toolboxes "nonexistent" = none ∧
    ("nonexistent" ≠ mgr0.toolboxName) ∧
    ((setToolbox mgr0 "nonexistent").1.toolboxName = "default" ∧
      (setToolbox mgr0 "nonexistent").2 = [Change.toolbox]) :=
  ⟨rfl, by decide,
    (c3_set_toolbox mgr0 "nonexistent" rfl).2 (by decide)⟩

/-- C5: a kernel-changed event whose new kernel name is present in the
session catalog updates the selected kernel to that spec, re-resolves the
generator from the registry by the spec's language — leaving it absent when
no generator is registered for that language — and emits exactly one
"kernel" change. -/
theorem c5_kernel_changed (m : ManagerState) (nm : String) (spec : KernelSpecModel)
    (hk : alookup m.kernelspecs nm = some spec) :
    (onKernelChanged m (some nm)).1.selectedKernel = some spec ∧
    (onKernelChanged m (some nm)).1.generator = alookup m.generators spec.language ∧
    (alookup m.generators spec.language = none →
      (onKernelChanged m (some nm)).1.generator = none) ∧
    (onKernelChanged m (some nm)).2 = [Change.kernel] := by
  refine ⟨?_, ?_, ?_, ?_⟩ <;> simp [onKernelChanged, hk]

/-- Witness for C5 at a concrete input: the catalog kernel "python3". -/
theorem c5_kernel_changed_witness :
    alookup mgr0.kernelspecs "python3" = some specPy ∧
    ((onKernelChanged mgr0 (some "python3")).1.selectedKernel = some specPy ∧
      (onKernelChanged mgr0 (some "python3")).1.generator =
        alookup mgr0.generators specPy.language ∧
      (alookup mgr0.generators specPy.language = none →
        (onKernelChanged mgr0 (some "python3")).1.generator = none) ∧
      (onKernelChanged mgr0 (some "python3")).2 = [Change.kernel]) :=
  ⟨by decide, c5_kernel_changed mgr0 "python3" specPy (by decide)⟩

/-- C6: a kernel-changed event with no new kernel, or whose new kernel name
is absent from the session catalog, changes nothing — the whole manager
state is exactly the prior one and nothing is emitted. -/
theorem c6_kernel_changed_noop (m : ManagerState) (nv : Option String)
    (h : nv = none ∨ ∃ nm, nv = some nm ∧ alookup m.kernelspecs nm = none) :
    onKernelChanged m nv = (m, []) := by
  rcases h with h | ⟨nm, hnv, hln⟩
  · rw [h]; rfl
  · rw [hnv]; simp [onKernelChanged, hln]

/-- Witness for C6 at a concrete input: the unknown kernel name "julia". -/
theorem c6_kernel_changed_noop_witness :
    ((some "julia" : Option String) = none ∨
      ∃ nm, (some "julia" : Option String) = some nm ∧
        alookup mgr0.kernelspecs nm = none) ∧
    onKernelChanged mgr0 (some "julia") = (mgr0, []) :=
  ⟨Or.inr ⟨"julia", rfl, by decide⟩,
    c6_kernel_changed_noop mgr0 (some "julia") (Or.inr ⟨"julia", rfl, by decide⟩)⟩

/-- C7: `_load` dispatches on the persisted `format`: absent format with a
truthy `blocks` key loads the whole payload as workspace state and applies no
metadata; format `2` loads the `workspace` key and applies the metadata
toolbox / kernel names only after validating them against the registry and
the session catalog, reporting a non-fatal message on mismatch; any other
format makes the load fail with an "Unsupported file format" error, applying
no workspace state and changing nothing. -/
theorem c7_load_dispatch (m : ManagerState) (doc : PersistedDoc) :
    (doc.format = none → doc.hasBlocks = true →
      loadPanel m doc =
        (m, ⟨some (.wholePayload doc), [], [], none⟩)) ∧
    (doc.format = some (JsonFmt.num 2) →
      (loadPanel m doc).2.workspaceSet = some (.fromWorkspaceKey doc.workspace) ∧
      (∀ md t, doc.metadata = some md → md.toolbox = some t → t ≠ "" →
        ((alookup m.toolboxes t).isSome →
           (loadPanel m doc).1.toolboxName = t ∧
           (loadPanel m doc).2.errors = []) ∧
        (¬ (alookup m.toolboxes t).isSome →
           (loadPanel m doc).1 = m ∧
           (loadPanel m doc).2.errors = ["Unknown toolbox"])) ∧
      (∀ md k, doc.metadata = some md → md.kernel = some k → k ≠ "" →
          k ≠ "No kernel" →
        (((listKernels m).any (fun p => p.2 == k)) = true →
           (loadPanel m doc).2.kernelRequested = some k ∧
           (loadPanel m doc).2.warns = []) ∧
        (((listKernels m).any (fun p => p.2 == k)) = false →
           (loadPanel m doc).2.kernelRequested = none ∧
           (loadPanel m doc).2.warns = ["Unknown kernel in blockly file"]))) ∧
    ((∀ f, doc.format = some f → f ≠ JsonFmt.num 2) →
      ¬ (doc.format = none ∧ doc.hasBlocks = true) →
      (loadPanel m doc).1 = m ∧
      (loadPanel m doc).2.workspaceSet = none ∧
      (loadPanel m doc).2.errors = ["Unsupported file format"]) := by
  obtain ⟨fmt, hbk, ws, md⟩ := doc
  refine ⟨?_, ?_, ?_⟩
  · intro hf hb
    simp only at hf hb
    subst hf
    subst hb
    simp [loadPanel]
  · intro hf
    simp only at hf
    subst hf
    refine ⟨rfl, ?_, ?_⟩
    · intro md1 t hmd hto htne
      simp only at hmd
      subst hmd
      obtain ⟨mto, mk⟩ := md1
      simp only at hto
      subst hto
      constructor
      · intro hreg
        have hany := (listToolboxes_any_iff m t).mpr hreg
        constructor
        · simp [loadPanel, htne, hany, setToolbox_name_registered m t hreg]
        · simp [loadPanel, htne, hany]
      · intro hreg
        have hany : ((listToolboxes m).any (fun p => p.2 == t)) = false := by
          rw [← Bool.not_eq_true, listToolboxes_any_iff]
          exact hreg
        constructor
        · simp [loadPanel, htne, hany]
        · simp [loadPanel, htne, hany]
    · intro md1 k hmd hk hk1 hk2
      simp only at hmd
      subst hmd
      obtain ⟨mto, mk⟩ := md1
      simp only at hk
      subst hk
      have hmtk : listKernels (loadPanel m
          ⟨some (JsonFmt.num 2), hbk, ws, some ⟨mto, some k⟩⟩).1 = listKernels m := by
        rcases mto with _ | t
        · simp [loadPanel]
        · by_cases hte : t = ""
          · simp [loadPanel, hte]
          · by_cases hany : ((listToolboxes m).any (fun p => p.2 == t)) = true
            · simp [loadPanel, hte, hany, listKernels_setToolbox]
            · simp only [Bool.not_eq_true] at hany
              simp [loadPanel, hte, hany]
      rcases mto with _ | t
      · constructor
        · intro hyes
          constructor <;> simp [loadPanel, hk1, hk2, hyes]
        · intro hno
          constructor <;> simp [loadPanel, hk1, hk2, hno]
      · by_cases hte : t = ""
        · constructor
          · intro hyes
            constructor <;> simp [loadPanel, hte, hk1, hk2, hyes]
          · intro hno
            constructor <;> simp [loadPanel, hte, hk1, hk2, hno]
        · by_cases hany : ((listToolboxes m).any (fun p => p.2 == t)) = true
          · have hlk := listKernels_setToolbox m t
            constructor
            · intro hyes
              constructor <;> simp [loadPanel, hte, hany, hk1, hk2, hlk, hyes]
            · intro hno
              constructor <;> simp [loadPanel, hte, hany, hk1, hk2, hlk, hno]
          · simp only [Bool.not_eq_true] at hany
            constructor
            · intro hyes
              constructor <;> simp [loadPanel, hte, hany, hk1, hk2, hyes]
            · intro hno
              constructor <;> simp [loadPanel, hte, hany, hk1, hk2, hno]
  · intro hns hnb
    simp only at hns hnb
    rcases fmt with _ | f
    · have hb : hbk = false := by
        cases hbk
        · rfl
        · exact absurd ⟨rfl, rfl⟩ hnb
      subst hb
      simp [loadPanel]
    · have hf := hns f rfl
      simp [loadPanel, hf]

/-- A concrete format-2 document whose metadata names the registered toolbox
"default" and the catalog kernel "python3". -/
def docFmt2 : PersistedDoc :=
  { format := some (.num 2)
    hasBlocks := false
    workspace := some "WS"
    metadata := some { toolbox := some "default", kernel := some "python3" } }

/-- Witness for C7 at a concrete input: loading `docFmt2` into `mgr0`. -/
theorem c7_load_dispatch_witness :
    docFmt2.format = some (JsonFmt.num 2) ∧
    docFmt2.metadata = some { toolbox := some "default", kernel := some "python3" } ∧
    ("default" : String) ≠ "" ∧
    (alookup mgr0.toolboxes "default").isSome = true ∧
    ((listKernels mgr0).any (fun p => p.2 == "python3")) = true ∧
    (loadPanel mgr0 docFmt2).2.workspaceSet =
      some (.fromWorkspaceKey docFmt2.workspace) ∧
    ((loadPanel mgr0 docFmt2).1.toolboxName = "default" ∧
      (loadPanel mgr0 docFmt2).2.errors = []) ∧
    ((loadPanel mgr0 docFmt2).2.kernelRequested = some "python3" ∧
      (loadPanel mgr0 docFmt2).2.warns = []) := by
  have h := (c7_load_dispatch mgr0 docFmt2).2.1 rfl
  refine ⟨rfl, rfl, by decide, rfl, rfl, h.1, ?_, ?_⟩
  · exact (h.2.1 { toolbox := some "default", kernel := some "python3" }
      "default" rfl rfl (by decide)).1 rfl
  · exact (h.2.2 { toolbox := some "default", kernel := some "python3" }
      "python3" rfl rfl (by decide) (by decide)).1 rfl

/-- C8: `_onSave` always produces a format-2 document whose metadata records
the current toolbox name and the `kernel` getter's value (the kernel name, or
the sentinel "No kernel" when none is selected); and when the toolbox name is
registered and the selected kernel is catalogued under its own name with a
generator for its language, loading the saved document reproduces the
toolbox name, re-requests exactly the saved kernel, and the session's
confirmation of that request restores the same kernel name. -/
theorem c8_save_roundtrip (m : ManagerState) (w : Option String) :
    (onSave m w).format = some (JsonFmt.num 2) ∧
    (onSave m w).metadata =
      some { toolbox := some m.toolboxName, kernel := some (kernelGetter m) } ∧
    (m.selectedKernel = none → kernelGetter m = "No kernel") ∧
    (∀ sp : KernelSpecModel,
      (alookup m.toolboxes m.toolboxName).isSome →
      m.selectedKernel = some sp →
      sp.name ≠ "" → sp.name ≠ "No kernel" →
      alookup m.kernelspecs sp.name = some sp →
      (alookup m.generators sp.language).isSome →
      (loadPanel m (onSave m w)).1.toolboxName = m.toolboxName ∧
      (loadPanel m (onSave m w)).2.workspaceSet = some (.fromWorkspaceKey w) ∧
      (loadPanel m (onSave m w)).2.kernelRequested = some sp.name ∧
      kernelGetter (onKernelChanged (loadPanel m (onSave m w)).1 (some sp.name)).1 =
        sp.name) := by
  refine ⟨rfl, rfl, ?_, ?_⟩
  · intro h
    simp [kernelGetter, h]
  · intro sp hreg hsel hn1 hn2 hcat hgen
    have hkg : kernelGetter m = sp.name := by simp [kernelGetter, hsel, hn1]
    have hanyk := listKernels_any_of m sp.name sp hcat rfl hgen
    have hm1 : (loadPanel m (onSave m w)).1 = m := by
      by_cases hte : m.toolboxName = ""
      · simp [loadPanel, onSave, hkg, hte]
      · have hany := (listToolboxes_any_iff m m.toolboxName).mpr hreg
        simp [loadPanel, onSave, hkg, hte, hany, setToolbox_noop]
    have hreq : (loadPanel m (onSave m w)).2.kernelRequested = some sp.name := by
      by_cases hte : m.toolboxName = ""
      · simp [loadPanel, onSave, hkg, hte, hn1, hn2, hanyk]
      · have hany := (listToolboxes_any_iff m m.toolboxName).mpr hreg
        simp [loadPanel, onSave, hkg, hte, hany, setToolbox_noop, hn1, hn2, hanyk]
    refine ⟨by rw [hm1], ?_, hreq, ?_⟩
    · by_cases hte : m.toolboxName = ""
      · simp [loadPanel, onSave, hkg, hte]
      · have hany := (listToolboxes_any_iff m m.toolboxName).mpr hreg
        simp [loadPanel, onSave, hkg, hte, hany, setToolbox_noop]
    · rw [hm1]
      simp [onKernelChanged, hcat, kernelGetter, hn1]

/-- Witness for C8 at a concrete input: saving `mgr0` with workspace "WS"
and loading the result back. -/
theorem c8_save_roundtrip_witness :
    ((onSave mgr0 (some "WS")).format = some (JsonFmt.num 2) ∧
      (onSave mgr0 (some "WS")).metadata =
        some { toolbox := some mgr0.toolboxName,
               kernel := some (kernelGetter mgr0) }) ∧
    (alookup mgr0.toolboxes mgr0.toolboxName).isSome = true ∧
    mgr0.selectedKernel = some specPy ∧
    specPy.name ≠ "" ∧ specPy.name ≠ "No kernel" ∧
    alookup mgr0.kernelspecs specPy.name = some specPy ∧
    (alookup mgr0.generators specPy.language).isSome = true ∧
    ((loadPanel mgr0 (onSave mgr0 (some "WS"))).1.toolboxName = mgr0.toolboxName ∧
      (loadPanel mgr0 (onSave mgr0 (some "WS"))).2.workspaceSet =
        some (.fromWorkspaceKey (some "WS")) ∧
      (loadPanel mgr0 (onSave mgr0 (some "WS"))).2.kernelRequested =
        some specPy.name ∧
      kernelGetter (onKernelChanged (loadPanel mgr0 (onSave mgr0 (some "WS"))).1
        (some specPy.name)).1 = specPy.name) := by
  have h := c8_save_roundtrip mgr0 (some "WS")
  refine ⟨⟨h.1, h.2.1⟩, rfl, rfl, by decide, by decide, rfl, rfl, ?_⟩
  exact h.2.2.2 specPy rfl rfl (by decide) (by decide) rfl rfl

end JupyterlabBlockly
